import Mathlib

/-!
# Verification of the generic site-scraping and extraction engine

This development shallowly embeds the extraction core of the repository
(`src/custom_site_client.py` and the site-name normalization of
`src/gradio_server.py`) and proves the specification's claims about it.

Modelling conventions:

* Python strings are Lean `String`s; the Python string methods used by the
  code (`strip`, `lower`, single-character `replace`) are modelled over the
  character list of the string (`pyStrip`, `pyLower`, `pyReplaceChar`).
  `strip` removes the ASCII whitespace characters recognised by
  `Char.isWhitespace`; `lower` lowercases ASCII letters.
* The document produced by `BeautifulSoup(html, "html.parser")` is modelled
  post-parse as a tree of element and text nodes (`Node`).  The HTML parser
  itself is an external library and is treated as the boundary of the
  embedding: functions take the parsed tree as input.
* CSS selection (the external `soupsieve` engine) is modelled for the
  selector dialect the repository actually uses: type selectors (`item`,
  `title`, `link`, `a`, ...) and class selectors (`.news-item`).  `select`
  returns matches in document order (preorder), matching BeautifulSoup;
  `select_one` returns the first match among the strict descendants.
* `urllib.parse.urljoin` / `urlparse` are modelled after CPython's
  implementation (scheme/netloc/query/fragment splitting, the
  `uses_relative` / `uses_netloc` tables attached to the scheme, and
  RFC-3986-style segment merging).  The `params` (`;`) component is not
  modelled; none of the URLs involved use it.
* Network I/O (`requests.Session.get` + `raise_for_status`) composed with
  parsing is modelled as a function `String → Except String Node` from the
  fetched URL to either a parsed document or a raised exception.
* Raising `ValueError` in `fetch_site_items` is modelled by the `none`
  result; the file-writing side effect of `export_site_items` is modelled by
  returning the path, the written item sequence and the file content.
-/

/-! ## Python string primitives -/

/-- Characters removed by Python `str.strip()` (ASCII whitespace). -/
def pySpace (c : Char) : Bool := c.isWhitespace

/-- `str.strip()` on a character list: drop whitespace from both ends. -/
def stripChars (l : List Char) : List Char :=
  ((l.dropWhile pySpace).reverse.dropWhile pySpace).reverse

/-- Model of Python `str.strip()`. -/
def pyStrip (s : String) : String := ⟨stripChars s.data⟩

/-- Model of Python `str.lower()` on one character (ASCII range). -/
def pyCharLower (c : Char) : Char :=
  if h : c.isUpper then
    ⟨c.val + 32, by
      have h90 : c.val ≤ 90 := by
        have := h
        unfold Char.isUpper at this
        exact of_decide_eq_true (Bool.and_elim_right this)
      have hlt : c.val.toNat ≤ 90 := h90
      have : (c.val + 32).toNat = c.val.toNat + 32 := by
        have := UInt32.toNat_add c.val 32
        simp [UInt32.size] at this
        omega
      rw [UInt32.isValidChar, this]
      left
      omega⟩
  else c

/-- Model of Python `str.lower()` (ASCII range). -/
def pyLower (s : String) : String := ⟨s.data.map pyCharLower⟩

/-- Model of Python `str.replace(old, new)` for single characters. -/
def pyReplaceChar (old new : Char) (s : String) : String :=
  ⟨s.data.map (fun c => if c = old then new else c)⟩

/-- Split a character list on whitespace, dropping empty pieces (the way
`html.parser` tokenizes the multi-valued `class` attribute). -/
def splitWSAux (cur : List Char) : List Char → List (List Char)
  | [] => if cur = [] then [] else [cur.reverse]
  | c :: cs =>
    if pySpace c then
      if cur = [] then splitWSAux [] cs else cur.reverse :: splitWSAux [] cs
    else splitWSAux (c :: cur) cs

def splitWS (l : List Char) : List (List Char) := splitWSAux [] l

/-! ## The parsed document tree -/

/-- A node of the parsed document: an element with a tag name, attributes
and children, or a bare text fragment (a `NavigableString`). -/
inductive Node where
  | text (s : String) : Node
  | elem (tag : String) (attrs : List (String × String)) (children : List Node) : Node
deriving Repr

mutual

/-- All strict descendants of a node, in document (preorder) order; this is
the order in which BeautifulSoup's `select` reports matches. -/
def Node.descendants : Node → List Node
  | .text _ => []
  | .elem _ _ cs => descendantsList cs

def descendantsList : List Node → List Node
  | [] => []
  | c :: cs => (c :: c.descendants) ++ descendantsList cs

end

mutual

/-- The descendant text fragments of a node, in document order
(BeautifulSoup's `_all_strings` without stripping). -/
def Node.strings : Node → List String
  | .text s => [s]
  | .elem _ _ cs => stringsList cs

def stringsList : List Node → List String
  | [] => []
  | c :: cs => c.strings ++ stringsList cs

end

/-- Attribute lookup with `""` default: `tag.get(key, "") or ""`. -/
def Node.getAttr : Node → String → String
  | .text _, _ => ""
  | .elem _ attrs _, key =>
    match attrs.find? (fun p => p.1 = key) with
    | some p => p.2
    | none => ""

/-- `tag.get_text(strip=True)`: every descendant text fragment is stripped
individually, fragments that strip to nothing are dropped, and the rest are
concatenated with no separator. -/
def Node.getTextStrip (n : Node) : String :=
  String.join ((n.strings.map pyStrip).filter (fun s => s ≠ ""))

/-- The node's full text content (`get_text()` with no stripping): the
concatenation of all descendant text fragments. -/
def Node.textContent (n : Node) : String := String.join n.strings

/-- The whitespace-separated word list of an element's `class` attribute. -/
def classList (attrs : List (String × String)) : List String :=
  (splitWS (((attrs.find? (fun p => p.1 = "class")).map Prod.snd).getD "").data).map
    (fun l => String.mk l)

/-- Matching of the selector dialect used by the repository's configurations:
`.name` matches elements carrying class `name`; any other selector string is
a type selector matching elements with that tag name.  Text nodes match no
selector. -/
def matchesSelector (sel : String) (n : Node) : Bool :=
  match n with
  | .text _ => false
  | .elem tag attrs _ =>
    match sel.data with
    | '.' :: rest => (classList attrs).contains (String.mk rest)
    | _ => tag = sel

/-- `node.select(sel)`: all strict descendants matching `sel`, in document
order. -/
def Node.select (sel : String) (n : Node) : List Node :=
  n.descendants.filter (matchesSelector sel)

/-- `node.select_one(sel)`: the first strict descendant matching `sel`. -/
def Node.selectOne (sel : String) (n : Node) : Option Node :=
  (n.select sel).head?

/-! ## Model of `urllib.parse` URL splitting and joining -/

/-- The components produced by `urlsplit` (the `params` component is not
modelled). -/
structure SplitUrl where
  scheme : List Char
  netloc : List Char
  path : List Char
  query : List Char
  fragment : List Char
deriving Repr, DecidableEq

/-- Characters allowed in a URL scheme after the initial letter. -/
def schemeChar (c : Char) : Bool :=
  c.isAlpha || c.isDigit || c = '+' || c = '-' || c = '.'

/-- Scheme detection of `urlsplit`: the text before the first `:` is the
scheme when it is non-empty, starts with a letter and consists of scheme
characters; it is reported lowercased.  Otherwise the default applies. -/
def splitScheme (dflt url : List Char) : List Char × List Char :=
  match url.findIdx? (fun c => c = ':') with
  | some i =>
    if i = 0 then (dflt, url)
    else if (url.take i).all schemeChar &&
            (match url.head? with | some c => c.isAlpha | none => false) then
      ((url.take i).map pyCharLower, url.drop (i + 1))
    else (dflt, url)
  | none => (dflt, url)

/-- Netloc detection of `urlsplit`: after a leading `//`, up to the next
`/`, `?` or `#`. -/
def splitNetloc (url : List Char) : List Char × List Char :=
  match url with
  | '/' :: '/' :: rest =>
    (rest.takeWhile (fun c => !(c = '/' || c = '?' || c = '#')),
     rest.dropWhile (fun c => !(c = '/' || c = '?' || c = '#')))
  | _ => ([], url)

/-- Split at the first occurrence of `ch`: the part before it, and the part
after it when present. -/
def splitOnFirst (ch : Char) : List Char → List Char × Option (List Char)
  | [] => ([], none)
  | c :: cs =>
    if c = ch then ([], some cs)
    else
      let r := splitOnFirst ch cs
      (c :: r.1, r.2)

/-- Model of `urllib.parse.urlsplit` with a default scheme. -/
def urlsplitL (dfltScheme url : List Char) : SplitUrl :=
  let sr := splitScheme dfltScheme url
  let nr := splitNetloc sr.2
  let fr := splitOnFirst '#' nr.2
  let qr := splitOnFirst '?' fr.1
  { scheme := sr.1, netloc := nr.1, path := qr.1,
    query := (qr.2).getD [], fragment := (fr.2).getD [] }

/-- Model of `urllib.parse.urlunsplit`. -/
def urlunsplitL (u : SplitUrl) : List Char :=
  let url := u.path
  let url :=
    if u.netloc ≠ [] ∨ url.take 2 = ['/', '/'] then
      let url2 := if url ≠ [] ∧ url.head? ≠ some '/' then '/' :: url else url
      '/' :: '/' :: (u.netloc ++ url2)
    else url
  let url := if u.scheme ≠ [] then u.scheme ++ ':' :: url else url
  let url := if u.query ≠ [] then url ++ '?' :: u.query else url
  if u.fragment ≠ [] then url ++ '#' :: u.fragment else url

/-- CPython's `uses_relative` scheme table. -/
def usesRelative : List String :=
  ["", "ftp", "http", "gopher", "nntp", "imap", "wais", "file", "https",
   "shttp", "mms", "prospero", "rtsp", "rtspu", "sftp", "svn", "svn+ssh",
   "ws", "wss"]

/-- CPython's `uses_netloc` scheme table. -/
def usesNetloc : List String :=
  ["", "ftp", "http", "gopher", "nntp", "telnet", "imap", "wais", "file",
   "mms", "https", "shttp", "snews", "prospero", "rtsp", "rtspu", "rsync",
   "svn", "svn+ssh", "sftp", "nfs", "git", "git+ssh", "ws", "wss"]

/-- Python `"x".split('/')`: always non-empty, keeps empty pieces. -/
def splitSlash : List Char → List (List Char)
  | [] => [[]]
  | c :: cs =>
    if c = '/' then [] :: splitSlash cs
    else
      match splitSlash cs with
      | s :: rest => (c :: s) :: rest
      | [] => [[c]]

/-- `segments[1:-1] = filter(None, segments[1:-1])`: drop empty segments
strictly between the first and the last. -/
def filterInner : List (List Char) → List (List Char)
  | [] => []
  | [x] => [x]
  | x :: xs => if x = [] then filterInner xs else x :: filterInner xs

def filterMiddle : List (List Char) → List (List Char)
  | [] => []
  | a :: rest => a :: filterInner rest

/-- The `..` / `.` resolution loop of `urljoin` (`..` pops the most recent
segment, silently doing nothing on an empty stack; `.` is skipped). -/
def resolveLoop (acc : List (List Char)) : List (List Char) → List (List Char)
  | [] => acc.reverse
  | s :: rest =>
    if s = ['.', '.'] then resolveLoop acc.tail rest
    else if s = ['.'] then resolveLoop acc rest
    else resolveLoop (s :: acc) rest

/-- Model of `urllib.parse.urljoin` on character lists, following CPython:
scheme/netloc dispatch through `uses_relative` / `uses_netloc`, then
RFC-3986-style merging of the path segments. -/
def urljoinL (base url : List Char) : List Char :=
  if base = [] then url
  else if url = [] then base
  else
    let b := urlsplitL [] base
    let u := urlsplitL b.scheme url
    if u.scheme ≠ b.scheme ∨ ¬ usesRelative.contains (String.mk u.scheme) then url
    else if usesNetloc.contains (String.mk u.scheme) ∧ u.netloc ≠ [] then
      urlunsplitL u
    else
      let netloc := if usesNetloc.contains (String.mk u.scheme) then b.netloc else u.netloc
      if u.path = [] then
        let query := if u.query = [] then b.query else u.query
        urlunsplitL { scheme := u.scheme, netloc := netloc, path := b.path,
                      query := query, fragment := u.fragment }
      else
        let baseParts := splitSlash b.path
        let baseParts := if baseParts.getLast? ≠ some [] then baseParts.dropLast else baseParts
        let segments :=
          if u.path.head? = some '/' then splitSlash u.path
          else filterMiddle (baseParts ++ splitSlash u.path)
        let resolved := resolveLoop [] segments
        let resolved :=
          if segments.getLast? = some ['.'] ∨ segments.getLast? = some ['.', '.'] then
            resolved ++ [[]]
          else resolved
        let joined := List.intercalate ['/'] resolved
        let path := if joined = [] then ['/'] else joined
        urlunsplitL { scheme := u.scheme, netloc := netloc, path := path,
                      query := u.query, fragment := u.fragment }

/-- Model of `urllib.parse.urljoin` on strings. -/
def urljoin (base url : String) : String := ⟨urljoinL base.data url.data⟩

/-- `urlparse(url).netloc` (default empty scheme). -/
def urlparseNetloc (url : String) : String := ⟨(urlsplitL [] url.data).netloc⟩

/-! ## The extraction engine (`custom_site_client.py`) -/

/-- `SiteConfig` dataclass: selectors for one named source.  Field defaults
mirror the dataclass defaults. -/
structure SiteConfig where
  name : String
  url : String
  item_selector : String
  title_selector : String
  link_selector : String := "a"
  summary_selector : Option String := none
  base_url : Option String := none
deriving Repr, DecidableEq

/-- One normalized extracted record. -/
structure Item where
  title : String
  link : String
  summary : String
deriving Repr, DecidableEq

/-- Python's `a or b` for an optional string (`None` and `""` are falsy):
the base handed to `urljoin` by `config.base_url or config.url`. -/
def pyOrStr (o : Option String) (dflt : String) : String :=
  match o with
  | some s => if s = "" then dflt else s
  | none => dflt

/-- The link-bearing node of an item node:
`node.select_one(config.link_selector) if config.link_selector else title_node`. -/
def linkNodeOf (config : SiteConfig) (node titleNode : Node) : Option Node :=
  if config.link_selector ≠ "" then node.selectOne config.link_selector
  else some titleNode

/-- The raw link value of an item node: the stripped `href` attribute of the
link node when non-empty, else the link node's `get_text(strip=True)`; `""`
when there is no link node. -/
def rawLinkOf (config : SiteConfig) (node titleNode : Node) : String :=
  match linkNodeOf config node titleNode with
  | none => ""
  | some ln =>
    let h := pyStrip (ln.getAttr "href")
    if h = "" then ln.getTextStrip else h

/-- The summary of an item node: the `get_text(strip=True)` of the first
match of `config.summary_selector` when that selector is set (truthy), else
`""`. -/
def summaryOf (config : SiteConfig) (node : Node) : String :=
  match config.summary_selector with
  | some ss =>
    if ss ≠ "" then
      match node.selectOne ss with
      | some sn => sn.getTextStrip
      | none => ""
    else ""
  | none => ""

/-- The per-item-node body of the `_parse_items` loop: `none` when the loop
`continue`s (no title node) or when the title is empty (item not appended),
otherwise the appended record. -/
def parseItem (config : SiteConfig) (node : Node) : Option Item :=
  match node.selectOne config.title_selector with
  | none => none
  | some title_node =>
    let raw_link := rawLinkOf config node title_node
    let full_link :=
      if raw_link ≠ "" then urljoin (pyOrStr config.base_url config.url) raw_link
      else ""
    let title := title_node.getTextStrip
    if title ≠ "" then
      some { title := title, link := full_link, summary := summaryOf config node }
    else none

/-- `CustomSiteClient._parse_items`, as a function of the parsed document:
select the item nodes and run the loop body over them in document order,
appending the emitted records. -/
def parse_items (doc : Node) (config : SiteConfig) : List Item :=
  (doc.select config.item_selector).filterMap (parseItem config)

/-- `CustomSiteClient.fetch_site_items`.  The registry is the `site_configs`
dict (`.get` lookup); `fetchDoc` models one `session.get` +
`raise_for_status` + `BeautifulSoup` parse of the config's URL.  `none`
models the raised `ValueError` for an unknown site; any failure of the
fetch/parse is caught and converted to `some []`; on success the parsed
items are truncated to the first `limit`. -/
def fetch_site_items (registry : String → Option SiteConfig)
    (fetchDoc : String → Except String Node)
    (site_name : String) (limit : Nat) : Option (List Item) :=
  match registry site_name with
  | none => none
  | some config =>
    match fetchDoc config.url with
    | .error _ => some []
    | .ok doc => some ((parse_items doc config).take limit)

/-- One numbered line of the exported Markdown file
(`f"{idx}. [{title}]({link})\n"` plus the optional summary bullet). -/
def renderLine (idx : Nat) (it : Item) : String :=
  Nat.repr idx ++ ". [" ++ it.title ++ "](" ++ it.link ++ ")\n" ++
    (if it.summary ≠ "" then "   - 摘要：" ++ it.summary ++ "\n" else "")

/-- The numbered list written by the export loop (`enumerate(..., start=1)`). -/
def renderItemsFrom (idx : Nat) : List Item → String
  | [] => ""
  | it :: rest => renderLine idx it ++ renderItemsFrom (idx + 1) rest

/-- The full content written to the export file: heading plus numbered list. -/
def exportContent (site date hour : String) (items : List Item) : String :=
  "# " ++ site ++ " 热门信息 (" ++ date ++ " " ++ hour ++ ":00)\n\n" ++
    renderItemsFrom 1 items

/-- The outcome of a successful export: the file path and, modelling the
write side effect, the sequence of items the write loop ran over and the
file content. -/
structure ExportResult where
  path : String
  written : List Item
  content : String
deriving Repr, DecidableEq

/-- `CustomSiteClient.export_site_items`.  `now_date`/`now_hour` model
`datetime.now().strftime(...)`, used when `date`/`hour` are `None`.  The
`ValueError` of an unknown site is caught and turned into `none`; an empty
item list also yields `none`; otherwise the dated Markdown file is written
and its path returned.  No file is written when the result is `none`. -/
def export_site_items (registry : String → Option SiteConfig)
    (fetchDoc : String → Except String Node) (now_date now_hour : String)
    (site_name : String) (date hour : Option String) : Option ExportResult :=
  match fetch_site_items registry fetchDoc site_name 30 with
  | none => none
  | some items =>
    if items.isEmpty then none
    else
      let d := date.getD now_date
      let h := hour.getD now_hour
      some { path := "custom_sites/" ++ site_name ++ "/" ++ d ++ "/" ++ h ++ ".md",
             written := items,
             content := exportContent site_name d h items }

/-! ## Ad-hoc site-name normalization (`gradio_server.py`) -/

/-- `_normalize_site_name(raw_name, fallback_url)`: strip and lowercase the
supplied name; when that is empty, use the fallback URL's netloc with dots
replaced by underscores; finally replace spaces by underscores. -/
def normalize_site_name (raw_name fallback_url : String) : String :=
  let name := pyLower (pyStrip raw_name)
  let name :=
    if name = "" then pyReplaceChar '.' '_' (urlparseNetloc fallback_url)
    else name
  pyReplaceChar ' ' '_' name

/-- A concrete 50-item document used to exercise truncation. -/
def c6doc : Node :=
  Node.elem "root" [] ((List.range 50).map (fun i =>
    Node.elem "item" [] [Node.elem "title" [] [Node.text ("T" ++ Nat.repr i)]]))

/-- The configuration for the 50-item document. -/
def c6cfg : SiteConfig :=
  { name := "big", url := "https://e.com/big", item_selector := "item", title_selector := "title" }

/-! ## Claims -/

/-- C1 (title gate): for every parsed document and configuration, the
extractor emits no item for an item node that has no descendant matching
`title_selector` or whose extracted title is empty, and consequently every
item in the returned sequence has a non-empty title. -/
theorem c1_title_gate (doc : Node) (config : SiteConfig) :
    (∀ node, node ∈ doc.select config.item_selector →
      (node.selectOne config.title_selector = none ∨
        ∀ t, node.selectOne config.title_selector = some t → t.getTextStrip = "") →
      parseItem config node = none) ∧
    (∀ it, it ∈ parse_items doc config → it.title ≠ "") := by
  constructor
  · intro node _ hcond
    cases h : node.selectOne config.title_selector with
    | none => simp [parseItem, h]
    | some t =>
      rcases hcond with hnone | hempty
      · rw [h] at hnone; exact absurd hnone (by simp)
      · have ht := hempty t h
        simp [parseItem, h, ht]
  · intro it hit
    rw [parse_items, List.mem_filterMap] at hit
    obtain ⟨node, _, hp⟩ := hit
    rw [parseItem] at hp
    cases h : node.selectOne config.title_selector with
    | none => rw [h] at hp; simp at hp
    | some t =>
      rw [h] at hp
      by_cases hT : t.getTextStrip = ""
      · simp [hT] at hp
      · simp only [hT, if_pos, ite_not, if_neg] at hp
        simp at hp
        rw [← hp]
        exact hT

/-- C1 witness: a title-less item node yields nothing, and the item emitted
for the title-bearing node of the same document has a non-empty title. -/
theorem c1_title_gate_witness :
    parseItem { name := "w", url := "https://e.com/x", item_selector := "item", title_selector := "title" } (Node.elem "item" [] []) = none ∧
    (Item.mk "T" "" "").title ≠ "" := by
  have h := c1_title_gate
    (Node.elem "root" [] [Node.elem "item" [] [],
      Node.elem "item" [] [Node.elem "title" [] [Node.text "T"]]])
    { name := "w", url := "https://e.com/x", item_selector := "item", title_selector := "title" }
  exact ⟨h.1 (Node.elem "item" [] []) (List.Mem.head _) (Or.inl rfl),
    h.2 (Item.mk "T" "" "") (List.Mem.head _)⟩

/-- For any list transformed by `filterMap`, the outputs can be indexed back
into the input by a strictly increasing position map: no reordering, no
duplication, nothing invented. -/
theorem filterMap_orderEmbedding {α β : Type} (f : α → Option β) (l : List α) :
    ∃ g : Nat → Nat,
      (∀ i j, i < j → j < (l.filterMap f).length → g i < g j) ∧
      (∀ k, k < (l.filterMap f).length → (l[g k]?).bind f = (l.filterMap f)[k]?) := by
  induction l with
  | nil => exact ⟨id, fun i j hij hj => by simp at hj, fun k hk => by simp at hk⟩
  | cons a l ih =>
    obtain ⟨g, hmono, hval⟩ := ih
    cases hfa : f a with
    | none =>
      refine ⟨fun k => g k + 1, ?_, ?_⟩
      · intro i j hij hj
        rw [List.filterMap_cons_none hfa] at hj
        exact Nat.succ_lt_succ (hmono i j hij hj)
      · intro k hk
        rw [List.filterMap_cons_none hfa] at hk ⊢
        rw [List.getElem?_cons_succ]
        exact hval k hk
    | some b =>
      refine ⟨fun k => match k with | 0 => 0 | k + 1 => g k + 1, ?_, ?_⟩
      · intro i j hij hj
        rw [List.filterMap_cons_some hfa] at hj
        simp only [List.length_cons] at hj
        match i, j with
        | 0, j + 1 => exact Nat.succ_pos _
        | i + 1, j + 1 =>
          exact Nat.succ_lt_succ
            (hmono i j (Nat.lt_of_succ_lt_succ hij) (Nat.lt_of_succ_lt_succ hj))
      · intro k hk
        rw [List.filterMap_cons_some hfa] at hk ⊢
        match k with
        | 0 => simp [hfa]
        | k + 1 =>
          simp only [List.length_cons] at hk
          rw [List.getElem?_cons_succ, List.getElem?_cons_succ]
          exact hval k (Nat.lt_of_succ_lt_succ hk)

/-- C5 (order preservation): the output sequence is exactly the per-node
emission over the matched item nodes in document order — every node is
processed (no deduplication), and a strictly increasing index map carries
output positions back to the matched nodes' document-order positions (no
sorting). -/
theorem c5_order_preservation (doc : Node) (config : SiteConfig) :
    parse_items doc config =
      ((doc.select config.item_selector).map (parseItem config)).reduceOption ∧
    ∃ g : Nat → Nat,
      (∀ i j, i < j → j < (parse_items doc config).length → g i < g j) ∧
      (∀ k, k < (parse_items doc config).length →
        ((doc.select config.item_selector)[g k]?).bind (parseItem config) =
          (parse_items doc config)[k]?) := by
  refine ⟨?_, filterMap_orderEmbedding _ _⟩
  rw [parse_items]
  simp [List.reduceOption, List.filterMap_map]

/-- C5 witness: on a concrete three-item document (the middle node
title-less), the extractor output equals the document-order per-node
emission. -/
theorem c5_order_preservation_witness :
    parse_items
      (Node.elem "root" [] [
        Node.elem "item" [] [Node.elem "title" [] [Node.text "A"]],
        Node.elem "item" [] [],
        Node.elem "item" [] [Node.elem "title" [] [Node.text "B"]]])
      { name := "w", url := "https://e.com/x", item_selector := "item", title_selector := "title" } =
    (((Node.elem "root" [] [
        Node.elem "item" [] [Node.elem "title" [] [Node.text "A"]],
        Node.elem "item" [] [],
        Node.elem "item" [] [Node.elem "title" [] [Node.text "B"]]]).select "item").map
      (parseItem { name := "w", url := "https://e.com/x", item_selector := "item", title_selector := "title" })).reduceOption :=
  (c5_order_preservation _ _).1

/-- Concatenating a one-element string list is the string itself. -/
theorem join_single (s : String) : String.join [s] = s := by
  apply String.ext
  show (("" : String) ++ s).data = s.data
  simp

/-- When a node's content is a single text fragment, `get_text(strip=True)`
coincides with stripping the node's full text content. -/
theorem getTextStrip_single (n : Node) (s : String) (h : n.strings = [s]) :
    n.getTextStrip = pyStrip n.textContent := by
  rw [Node.getTextStrip, Node.textContent, h, join_single]
  by_cases hs : pyStrip s = ""
  · simp [hs, String.join]
  · simp [hs, join_single]

/-- Field characterization of an emitted item in terms of the selected title
node, the raw link and the summary. -/
theorem parseItem_fields (config : SiteConfig) (node titleNode : Node)
    (htitle : node.selectOne config.title_selector = some titleNode) :
    ∀ it, parseItem config node = some it →
      it.link = (if rawLinkOf config node titleNode ≠ "" then
          urljoin (pyOrStr config.base_url config.url) (rawLinkOf config node titleNode)
        else "") ∧
      it.title = titleNode.getTextStrip ∧ it.summary = summaryOf config node := by
  intro it hit
  rw [parseItem, htitle] at hit
  by_cases hT : titleNode.getTextStrip = ""
  · simp [hT] at hit
  · simp at hit
    obtain ⟨-, hit⟩ := hit
    rw [← hit]
    refine ⟨by simp only [ite_not], rfl, rfl⟩

/-- A node with a title node whose extracted title is non-empty always emits
an item, with the computed fields. -/
theorem parseItem_emits (config : SiteConfig) (node titleNode : Node)
    (htitle : node.selectOne config.title_selector = some titleNode)
    (hT : titleNode.getTextStrip ≠ "") :
    parseItem config node = some
      { title := titleNode.getTextStrip,
        link := if rawLinkOf config node titleNode ≠ "" then
            urljoin (pyOrStr config.base_url config.url) (rawLinkOf config node titleNode)
          else "",
        summary := summaryOf config node } := by
  rw [parseItem, htitle]
  simp only [ite_not]
  simp [hT]

/-- C2 (amended): the link node is the first descendant matching
`link_selector`, falling back to the title node itself when `link_selector`
is empty; the raw link is the link node's `href` attribute trimmed when that
is non-empty, otherwise the concatenation of the link node's
individually-trimmed text fragments — which equals the node's trimmed text
content whenever the link node holds a single text fragment. -/
theorem c2_dual_link_amended (config : SiteConfig) (node titleNode : Node) :
    (config.link_selector = "" → linkNodeOf config node titleNode = some titleNode) ∧
    (config.link_selector ≠ "" →
      linkNodeOf config node titleNode = node.selectOne config.link_selector) ∧
    (linkNodeOf config node titleNode = none → rawLinkOf config node titleNode = "") ∧
    (∀ ln, linkNodeOf config node titleNode = some ln →
      (pyStrip (ln.getAttr "href") ≠ "" →
        rawLinkOf config node titleNode = pyStrip (ln.getAttr "href")) ∧
      (pyStrip (ln.getAttr "href") = "" →
        rawLinkOf config node titleNode = ln.getTextStrip) ∧
      (pyStrip (ln.getAttr "href") = "" → ∀ s, ln.strings = [s] →
        rawLinkOf config node titleNode = pyStrip ln.textContent)) := by
  refine ⟨?_, ?_, ?_, ?_⟩
  · intro h; simp [linkNodeOf, h]
  · intro h; simp [linkNodeOf, h]
  · intro h; simp [rawLinkOf, h]
  · intro ln h
    refine ⟨?_, ?_, ?_⟩
    · intro hh; simp [rawLinkOf, h, hh]
    · intro hh; simp [rawLinkOf, h, hh]
    · intro hh s hs
      simp [rawLinkOf, h, hh]
      exact getTextStrip_single ln s hs

/-- C2 witness: with an empty `link_selector` the title node is the link
node, and its single-fragment text yields the trimmed text content as the
raw link (the RSS text-link fallback of property P4). -/
theorem c2_dual_link_witness :
    linkNodeOf
      { name := "w", url := "https://e.com/rss", item_selector := "item", title_selector := "title", link_selector := "" }
      (Node.elem "item" [] [Node.elem "title" [] [Node.text " https://example.com/feed-item "]])
      (Node.elem "title" [] [Node.text " https://example.com/feed-item "]) =
      some (Node.elem "title" [] [Node.text " https://example.com/feed-item "]) ∧
    rawLinkOf
      { name := "w", url := "https://e.com/rss", item_selector := "item", title_selector := "title", link_selector := "" }
      (Node.elem "item" [] [Node.elem "title" [] [Node.text " https://example.com/feed-item "]])
      (Node.elem "title" [] [Node.text " https://example.com/feed-item "]) =
      pyStrip ((Node.elem "title" [] [Node.text " https://example.com/feed-item "]).textContent) ∧
    pyStrip ((Node.elem "title" [] [Node.text " https://example.com/feed-item "]).textContent) =
      "https://example.com/feed-item" := by
  have h := c2_dual_link_amended
    { name := "w", url := "https://e.com/rss", item_selector := "item", title_selector := "title", link_selector := "" }
    (Node.elem "item" [] [Node.elem "title" [] [Node.text " https://example.com/feed-item "]])
    (Node.elem "title" [] [Node.text " https://example.com/feed-item "])
  refine ⟨h.1 rfl, ?_, by decide⟩
  exact (h.2.2.2 _ (h.1 rfl)).2.2 rfl " https://example.com/feed-item " rfl

/-- C2 counterexample: for a link node with several text fragments the code's
raw link (`get_text(strip=True)`) is the concatenation of the
individually-trimmed fragments, not the node's text content trimmed, and the
emitted link resolves the former. -/
theorem c2_dual_link_cex :
    rawLinkOf
      { name := "c2", url := "https://e.com/x", item_selector := "item", title_selector := "title", link_selector := "link" }
      (Node.elem "item" [] [Node.elem "title" [] [Node.text "T"],
        Node.elem "link" [] [Node.text "  /a  ", Node.elem "b" [] [Node.text "/b"], Node.text " "]])
      (Node.elem "title" [] [Node.text "T"]) = "/a/b" ∧
    pyStrip ((Node.elem "link" [] [Node.text "  /a  ", Node.elem "b" [] [Node.text "/b"], Node.text " "]).getAttr "href") = "" ∧
    pyStrip ((Node.elem "link" [] [Node.text "  /a  ", Node.elem "b" [] [Node.text "/b"], Node.text " "]).textContent) = "/a  /b" ∧
    ("/a/b" : String) ≠ "/a  /b" ∧
    parse_items
      (Node.elem "root" [] [Node.elem "item" [] [Node.elem "title" [] [Node.text "T"],
        Node.elem "link" [] [Node.text "  /a  ", Node.elem "b" [] [Node.text "/b"], Node.text " "]]])
      { name := "c2", url := "https://e.com/x", item_selector := "item", title_selector := "title", link_selector := "link" } =
      [Item.mk "T" "https://e.com/a/b" ""] := by decide

/-- C3 (link resolution): an emitted item's link is the raw link resolved by
`urljoin` against `base_url` when that is set (non-empty), else against
`url`; with no raw link the item is still emitted and its link is empty;
root-relative links join onto the base's origin and absolute links pass
through unchanged. -/
theorem c3_link_resolution (config : SiteConfig) (node titleNode : Node)
    (htitle : node.selectOne config.title_selector = some titleNode) :
    (∀ it, parseItem config node = some it →
      (rawLinkOf config node titleNode ≠ "" →
        it.link = urljoin (pyOrStr config.base_url config.url) (rawLinkOf config node titleNode)) ∧
      (rawLinkOf config node titleNode = "" → it.link = "")) ∧
    (titleNode.getTextStrip ≠ "" → ∃ it, parseItem config node = some it) ∧
    (config.base_url = none → pyOrStr config.base_url config.url = config.url) ∧
    (∀ b, config.base_url = some b → b ≠ "" → pyOrStr config.base_url config.url = b) ∧
    urljoin "https://example.com" "/a/b" = "https://example.com/a/b" ∧
    urljoin "https://example.com" "https://other.com/x" = "https://other.com/x" := by
  refine ⟨?_, ?_, ?_, ?_, by decide, by decide⟩
  · intro it hit
    have h := parseItem_fields config node titleNode htitle it hit
    constructor
    · intro hr; rw [h.1, if_pos hr]
    · intro hr; rw [h.1, if_neg (by simp [hr])]
  · intro hT
    exact ⟨_, parseItem_emits config node titleNode htitle hT⟩
  · intro h; simp [pyOrStr, h]
  · intro b hb hne; simp [pyOrStr, hb, hne]

/-- C3 witness: a linkless item is emitted with an empty link, and the
root-relative resolution instance of P3 holds. -/
theorem c3_link_resolution_witness :
    (Item.mk "T" "" "").link = "" ∧
    urljoin "https://example.com" "/a/b" = "https://example.com/a/b" := by
  have h := c3_link_resolution
    { name := "w", url := "https://e.com/x", item_selector := "item", title_selector := "title" }
    (Node.elem "item" [] [Node.elem "title" [] [Node.text "T"]])
    (Node.elem "title" [] [Node.text "T"]) rfl
  exact ⟨(h.1 (Item.mk "T" "" "") rfl).2 rfl, h.2.2.2.2.1⟩

/-- C4 counterexample: with `base_url` absent and
`url = "https://example.com/dir/page.xml"`, the path-relative raw link
`"a/b"` resolves to `"https://example.com/dir/a/b"` — against the url's
directory, not the origin `"https://example.com/a/b"` stated by the claim. -/
theorem c4_default_base_cex :
    parse_items
      (Node.elem "root" [] [Node.elem "item" [] [
        Node.elem "title" [] [Node.text "T"],
        Node.elem "link" [] [Node.text "a/b"]]])
      { name := "c4", url := "https://example.com/dir/page.xml", item_selector := "item", title_selector := "title", link_selector := "link" } =
      [Item.mk "T" "https://example.com/dir/a/b" ""] ∧
    ("https://example.com/dir/a/b" : String) ≠ "https://example.com/a/b" := by decide

/-- C4 (amended): when `base_url` is absent every raw link is resolved
against `config.url` itself by standard URL joining — so root-relative links
resolve against the url's origin but path-relative links resolve against the
url's path directory. -/
theorem c4_default_base_amended (config : SiteConfig) (node titleNode : Node)
    (hbase : config.base_url = none)
    (htitle : node.selectOne config.title_selector = some titleNode) :
    (∀ it, parseItem config node = some it →
      rawLinkOf config node titleNode ≠ "" →
      it.link = urljoin config.url (rawLinkOf config node titleNode)) ∧
    urljoin "https://example.com/dir/page.xml" "a/b" = "https://example.com/dir/a/b" ∧
    urljoin "https://example.com/dir/page.xml" "/a/b" = "https://example.com/a/b" := by
  refine ⟨?_, by decide, by decide⟩
  intro it hit hr
  have h := parseItem_fields config node titleNode htitle it hit
  rw [h.1, if_pos hr]
  simp [pyOrStr, hbase]

/-- C4 witness: the amended resolution evaluated on the counterexample's
input. -/
theorem c4_default_base_witness :
    (Item.mk "T" "https://example.com/dir/a/b" "").link =
      urljoin "https://example.com/dir/page.xml" "a/b" := by
  have h := c4_default_base_amended
    { name := "c4", url := "https://example.com/dir/page.xml", item_selector := "item", title_selector := "title", link_selector := "link" }
    (Node.elem "item" [] [Node.elem "title" [] [Node.text "T"],
      Node.elem "link" [] [Node.text "a/b"]])
    (Node.elem "title" [] [Node.text "T"]) rfl rfl
  exact h.1 (Item.mk "T" "https://example.com/dir/a/b" "") (by decide) (by decide)

/-- Lowercasing never produces an ASCII uppercase letter. -/
theorem pyCharLower_not_upper (c : Char) : (pyCharLower c).isUpper = false := by
  rw [pyCharLower]
  split
  · next h =>
    rw [Char.isUpper] at h
    rw [Bool.and_eq_true] at h
    have h65 : (65 : Nat) ≤ c.val.toNat := of_decide_eq_true h.1
    have h90 : c.val.toNat ≤ 90 := of_decide_eq_true h.2
    have hadd : (c.val + 32).toNat = c.val.toNat + 32 := by
      have ht := UInt32.toNat_add c.val 32
      have h32 : (32 : UInt32).toNat = 32 := rfl
      rw [h32] at ht
      rw [ht, Nat.mod_eq_of_lt]
      have : UInt32.size = 4294967296 := rfl
      omega
    rw [Char.isUpper]
    apply Bool.and_eq_false_iff.2
    right
    apply decide_eq_false
    intro hle
    have : (c.val + 32).toNat ≤ 90 := hle
    omega
  · next h =>
    exact Bool.eq_false_iff.mpr h

/-- An ASCII whitespace character is never an uppercase letter. -/
theorem not_upper_of_pySpace (c : Char) (h : pySpace c = true) : c.isUpper = false := by
  rw [pySpace, Char.isWhitespace] at h
  simp only [Bool.or_eq_true, decide_eq_true_eq] at h
  rcases h with ((h | h) | h) | h <;> subst h <;> decide

/-- The element a `dropWhile` stops at fails the predicate. -/
theorem dropWhile_head_not (p : Char → Bool) (l : List Char) (y : Char) (ys : List Char)
    (h : l.dropWhile p = y :: ys) : p y = false := by
  induction l with
  | nil => simp at h
  | cons a as ih =>
    rw [List.dropWhile_cons] at h
    split at h
    · exact ih h
    · next hn =>
      injection h with h1 h2
      subst h1
      exact Bool.eq_false_iff.mpr hn

/-- A character list that strips to nothing is all whitespace. -/
theorem all_space_of_stripChars_nil (l : List Char) (h : stripChars l = []) :
    ∀ x ∈ l, pySpace x = true := by
  rw [stripChars, List.reverse_eq_nil_iff] at h
  intro x hx
  by_cases hd : l.dropWhile pySpace = []
  · exact List.dropWhile_eq_nil_iff.1 hd x hx
  · exfalso
    have hall := List.dropWhile_eq_nil_iff.1 h
    obtain ⟨y, ys, hys⟩ := List.exists_cons_of_ne_nil hd
    have hy : pySpace y = true := by
      apply hall
      rw [List.mem_reverse, hys]
      exact List.mem_cons_self _ _
    have hny := dropWhile_head_not pySpace l y ys hys
    exact absurd hy (by simp [hny])

/-- Lowercasing yields the empty string only for the empty string. -/
theorem pyLower_empty_iff (s : String) : pyLower s = "" ↔ s = "" := by
  constructor
  · intro h
    have hd := congrArg String.data h
    simp [pyLower] at hd
    exact String.ext hd
  · intro h
    subst h
    rfl

/-- A string that strips to nothing is all whitespace. -/
theorem pyStrip_empty_all_space (s : String) (h : pyStrip s = "") :
    ∀ x ∈ s.data, pySpace x = true := by
  have hd := congrArg String.data h
  simp [pyStrip] at hd
  exact all_space_of_stripChars_nil s.data hd

/-- C10 (ad-hoc name normalization): the registered name is the supplied
name trimmed, lowercased and with spaces replaced by underscores; a blank
supplied name falls back to the fallback URL's netloc with dots (and spaces)
replaced by underscores; consequently any supplied name containing an ASCII
uppercase letter or a space, or that is blank, differs from the registered
name (given the URL has a non-blank, whitespace-free netloc, which
`generate_custom_site_report` has already validated). -/
theorem c10_name_normalization (raw url : String)
    (hnet1 : urlparseNetloc url ≠ "")
    (hnet2 : ∀ c ∈ (urlparseNetloc url).data, pySpace c = false) :
    (pyStrip raw ≠ "" →
      normalize_site_name raw url = pyReplaceChar ' ' '_' (pyLower (pyStrip raw))) ∧
    (pyStrip raw = "" →
      normalize_site_name raw url =
        pyReplaceChar ' ' '_' (pyReplaceChar '.' '_' (urlparseNetloc url))) ∧
    ((∃ c ∈ raw.data, c.isUpper = true) ∨ ' ' ∈ raw.data ∨ pyStrip raw = "" →
      normalize_site_name raw url ≠ raw) := by
  have hbranch1 : pyStrip raw ≠ "" →
      normalize_site_name raw url = pyReplaceChar ' ' '_' (pyLower (pyStrip raw)) := by
    intro hs
    rw [normalize_site_name]
    simp only [if_neg (fun hh => hs ((pyLower_empty_iff _).1 hh))]
  have hbranch2 : pyStrip raw = "" →
      normalize_site_name raw url =
        pyReplaceChar ' ' '_' (pyReplaceChar '.' '_' (urlparseNetloc url)) := by
    intro hs
    rw [normalize_site_name]
    simp only [hs]
    simp [pyLower]
  refine ⟨hbranch1, hbranch2, ?_⟩
  rintro (⟨c, hc, hup⟩ | hsp | hblank) heq
  · have hcs : pySpace c = false := by
      cases hpc : pySpace c with
      | false => rfl
      | true => rw [not_upper_of_pySpace c hpc] at hup; exact absurd hup (by simp)
    have hs : pyStrip raw ≠ "" := by
      intro hnil
      have := pyStrip_empty_all_space raw hnil c hc
      rw [hcs] at this
      exact absurd this (by simp)
    rw [hbranch1 hs] at heq
    have hmem : c ∈ (pyReplaceChar ' ' '_' (pyLower (pyStrip raw))).data := by
      rw [heq]; exact hc
    simp only [pyReplaceChar, pyLower, List.map_map] at hmem
    obtain ⟨e, -, he⟩ := List.mem_map.1 hmem
    simp only [Function.comp] at he
    by_cases hsp' : pyCharLower e = ' '
    · rw [hsp'] at he
      simp at he
      rw [← he] at hup
      exact absurd hup (by decide)
    · rw [if_neg hsp'] at he
      rw [← he] at hup
      rw [pyCharLower_not_upper e] at hup
      exact absurd hup (by simp)
  · have hmem : ' ' ∈ (normalize_site_name raw url).data := by rw [heq]; exact hsp
    rw [normalize_site_name] at hmem
    simp only [pyReplaceChar] at hmem
    obtain ⟨e, -, he⟩ := List.mem_map.1 hmem
    by_cases h0 : e = ' '
    · rw [if_pos h0] at he
      exact absurd he (by decide)
    · rw [if_neg h0] at he
      exact h0 he
  · have hall := pyStrip_empty_all_space raw hblank
    rw [hbranch2 hblank] at heq
    obtain ⟨d, ds, hds⟩ : ∃ d ds, (pyReplaceChar ' ' '_' (pyReplaceChar '.' '_' (urlparseNetloc url))).data = d :: ds := by
      cases hnd : (pyReplaceChar ' ' '_' (pyReplaceChar '.' '_' (urlparseNetloc url))).data with
      | nil =>
        exfalso
        simp [pyReplaceChar] at hnd
        exact hnet1 (String.ext hnd)
      | cons d ds => exact ⟨d, ds, rfl⟩
    have hdmem : d ∈ raw.data := by
      rw [← heq, hds]
      exact List.mem_cons_self _ _
    have hdspace := hall d hdmem
    have hdmem2 : d ∈ (pyReplaceChar ' ' '_' (pyReplaceChar '.' '_' (urlparseNetloc url))).data := by
      rw [hds]; exact List.mem_cons_self _ _
    simp only [pyReplaceChar, List.map_map] at hdmem2
    obtain ⟨e, hemem, he⟩ := List.mem_map.1 hdmem2
    simp only [Function.comp] at he
    have hens := hnet2 e hemem
    by_cases h0 : e = '.'
    · rw [if_pos h0] at he
      simp at he
      rw [← he] at hdspace
      exact absurd hdspace (by decide)
    · rw [if_neg h0] at he
      have : e ≠ ' ' := by
        intro hh
        rw [hh] at hens
        exact absurd hens (by decide)
      rw [if_neg this] at he
      rw [← he] at hdspace
      rw [hens] at hdspace
      exact absurd hdspace (by simp)

/-- C10 witness: `"My Blog"` normalizes to `"my_blog"` (≠ input) and a blank
name falls back to the underscored netloc. -/
theorem c10_name_normalization_witness :
    normalize_site_name "My Blog" "https://news.example.com/feed" ≠ "My Blog" ∧
    normalize_site_name "My Blog" "https://news.example.com/feed" = "my_blog" ∧
    normalize_site_name "" "https://news.example.com/feed" = "news_example_com" := by
  have h := c10_name_normalization "My Blog" "https://news.example.com/feed"
    (by decide) (by decide)
  refine ⟨h.2.2 (Or.inr (Or.inl (by decide))), by decide, by decide⟩

/-- C6 (truncation): for a registered site whose fetch succeeds,
`fetch_site_items` returns exactly the first `limit` parsed items (default
30 at the export call site) in original order — `min limit n` of the `n`
extractable items — and whatever export writes is exactly that truncated
sequence. -/
theorem c6_truncation (registry : String → Option SiteConfig)
    (fetchDoc : String → Except String Node) (site_name : String)
    (config : SiteConfig) (doc : Node) (limit : Nat)
    (hreg : registry site_name = some config)
    (hfetch : fetchDoc config.url = Except.ok doc) :
    fetch_site_items registry fetchDoc site_name limit =
      some ((parse_items doc config).take limit) ∧
    ((parse_items doc config).take limit).length =
      min limit (parse_items doc config).length ∧
    (∀ now_date now_hour date hour res,
      export_site_items registry fetchDoc now_date now_hour site_name date hour = some res →
      res.written = (parse_items doc config).take 30) := by
  have hfe : ∀ lim, fetch_site_items registry fetchDoc site_name lim =
      some ((parse_items doc config).take lim) := by
    intro lim
    rw [fetch_site_items, hreg]
    simp [hfetch]
  refine ⟨hfe limit, List.length_take _ _, ?_⟩
  intro nd nh d h res hres
  rw [export_site_items, hfe 30] at hres
  simp only at hres
  split at hres
  · exact absurd hres (by simp)
  · injection hres with hres
    rw [← hres]

/-- C6 witness: with 50 extractable items and limit 30, the fetch returns
the first 30 in order and the export writes exactly those 30. -/
theorem c6_truncation_witness :
    fetch_site_items (fun n => if n = "big" then some c6cfg else none)
      (fun _ => Except.ok c6doc) "big" 30 =
      some ((parse_items c6doc c6cfg).take 30) ∧
    (parse_items c6doc c6cfg).length = 50 ∧
    ((parse_items c6doc c6cfg).take 30).length = 30 ∧
    (export_site_items (fun n => if n = "big" then some c6cfg else none)
        (fun _ => Except.ok c6doc) "2025-01-01" "12" "big" none none).map ExportResult.written =
      some ((parse_items c6doc c6cfg).take 30) := by
  have h := c6_truncation (fun n => if n = "big" then some c6cfg else none)
    (fun _ => Except.ok c6doc) "big" c6cfg c6doc 30 rfl rfl
  refine ⟨h.1, by decide, by decide, by decide⟩

/-- C7 (fetch error routing): `fetch_site_items` raises (`none` in the
model) exactly when the site name is not registered; for a registered name a
failed fetch/parse is converted to the empty sequence, and some sequence is
always returned. -/
theorem c7_fetch_error_routing (registry : String → Option SiteConfig)
    (fetchDoc : String → Except String Node) (site_name : String) (limit : Nat) :
    (fetch_site_items registry fetchDoc site_name limit = none ↔
      registry site_name = none) ∧
    (∀ config e, registry site_name = some config →
      fetchDoc config.url = Except.error e →
      fetch_site_items registry fetchDoc site_name limit = some []) ∧
    (∀ config, registry site_name = some config →
      ∃ items, fetch_site_items registry fetchDoc site_name limit = some items) := by
  refine ⟨?_, ?_, ?_⟩
  · cases hr : registry site_name with
    | none => simp [fetch_site_items, hr]
    | some config =>
      rw [fetch_site_items, hr]
      cases hf : fetchDoc config.url <;> simp [hf]
  · intro config e hr hf
    rw [fetch_site_items, hr]
    simp [hf]
  · intro config hr
    rw [fetch_site_items, hr]
    cases hf : fetchDoc config.url with
    | error e => exact ⟨[], by simp [hf]⟩
    | ok doc => exact ⟨(parse_items doc config).take limit, by simp [hf]⟩

/-- C7 witness: a registered site with a failing fetch yields `some []`
(no exception), while an unknown name yields `none` (the raised
`ValueError`). -/
theorem c7_fetch_error_routing_witness :
    fetch_site_items
      (fun n => if n = "s" then
        some { name := "s", url := "https://e.com/x", item_selector := "item", title_selector := "title" } else none)
      (fun _ => Except.error "boom") "s" 30 = some [] ∧
    fetch_site_items
      (fun n => if n = "s" then
        some { name := "s", url := "https://e.com/x", item_selector := "item", title_selector := "title" } else none)
      (fun _ => Except.error "boom") "missing" 30 = none := by
  have h1 := c7_fetch_error_routing
    (fun n => if n = "s" then
      some { name := "s", url := "https://e.com/x", item_selector := "item", title_selector := "title" } else none)
    (fun _ => Except.error "boom") "s" 30
  have h2 := c7_fetch_error_routing
    (fun n => if n = "s" then
      some { name := "s", url := "https://e.com/x", item_selector := "item", title_selector := "title" } else none)
    (fun _ => Except.error "boom") "missing" 30
  exact ⟨h1.2.1 _ "boom" rfl rfl, h2.1.mpr rfl⟩

/-- C8 (export fail-soft): `export_site_items` returns `none` (writing no
file) exactly when the site lookup raised or the fetched item sequence is
empty — in particular for an unknown site name and for a document with zero
`item_selector` matches. -/
theorem c8_export_fail_soft (registry : String → Option SiteConfig)
    (fetchDoc : String → Except String Node) (now_date now_hour site_name : String)
    (date hour : Option String) :
    (export_site_items registry fetchDoc now_date now_hour site_name date hour = none ↔
      (fetch_site_items registry fetchDoc site_name 30 = none ∨
        fetch_site_items registry fetchDoc site_name 30 = some [])) ∧
    (registry site_name = none →
      export_site_items registry fetchDoc now_date now_hour site_name date hour = none) ∧
    (∀ config doc, registry site_name = some config →
      fetchDoc config.url = Except.ok doc → parse_items doc config = [] →
      export_site_items registry fetchDoc now_date now_hour site_name date hour = none) := by
  have hiff : export_site_items registry fetchDoc now_date now_hour site_name date hour = none ↔
      (fetch_site_items registry fetchDoc site_name 30 = none ∨
        fetch_site_items registry fetchDoc site_name 30 = some []) := by
    rw [export_site_items]
    cases hf : fetch_site_items registry fetchDoc site_name 30 with
    | none => simp
    | some items =>
      cases items with
      | nil => simp
      | cons a as => simp
  refine ⟨hiff, ?_, ?_⟩
  · intro hr
    apply hiff.mpr
    left
    rw [fetch_site_items, hr]
  · intro config doc hr hf hp
    apply hiff.mpr
    right
    rw [fetch_site_items, hr]
    simp [hf, hp]

/-- C8 witness: a document with zero `item_selector` matches exports as
`none`, and so does an unknown site name. -/
theorem c8_export_fail_soft_witness :
    export_site_items
      (fun n => if n = "s" then
        some { name := "s", url := "https://e.com/x", item_selector := "item", title_selector := "title" } else none)
      (fun _ => Except.ok (Node.elem "root" [] [Node.elem "div" [] [Node.text "no items here"]]))
      "2025-01-01" "12" "s" none none = none ∧
    export_site_items
      (fun n => if n = "s" then
        some { name := "s", url := "https://e.com/x", item_selector := "item", title_selector := "title" } else none)
      (fun _ => Except.ok (Node.elem "root" [] [Node.elem "div" [] [Node.text "no items here"]]))
      "2025-01-01" "12" "unknown" none none = none := by
  have h1 := c8_export_fail_soft
    (fun n => if n = "s" then
      some { name := "s", url := "https://e.com/x", item_selector := "item", title_selector := "title" } else none)
    (fun _ => Except.ok (Node.elem "root" [] [Node.elem "div" [] [Node.text "no items here"]]))
    "2025-01-01" "12" "s" none none
  have h2 := c8_export_fail_soft
    (fun n => if n = "s" then
      some { name := "s", url := "https://e.com/x", item_selector := "item", title_selector := "title" } else none)
    (fun _ => Except.ok (Node.elem "root" [] [Node.elem "div" [] [Node.text "no items here"]]))
    "2025-01-01" "12" "unknown" none none
  exact ⟨h1.2.2 _ _ rfl rfl (by decide), h2.2.1 rfl⟩

/-- C9 counterexample: for a title node holding several text fragments the
extracted title is the concatenation of the individually-trimmed fragments
(`"HelloWorld"`), not the text content with only surrounding whitespace
removed (`"Hello World"`): whitespace at fragment boundaries is dropped, so
extraction is not strip-only. -/
theorem c9_strip_only_cex :
    parse_items
      (Node.elem "root" [] [Node.elem "item" [] [Node.elem "title" [] [
        Node.text " Hello ", Node.elem "b" [] [Node.text "World"], Node.text " "]]])
      { name := "c9", url := "https://e.com/x", item_selector := "item", title_selector := "title" } =
      [Item.mk "HelloWorld" "" ""] ∧
    (Node.elem "title" [] [Node.text " Hello ", Node.elem "b" [] [Node.text "World"], Node.text " "]).getTextStrip = "HelloWorld" ∧
    pyStrip ((Node.elem "title" [] [Node.text " Hello ", Node.elem "b" [] [Node.text "World"], Node.text " "]).textContent) = "Hello World" ∧
    ("HelloWorld" : String) ≠ "Hello World" := by decide

/-- C9 (amended): text extraction strips each descendant text fragment
individually and concatenates the non-empty results; for a node whose
content is a single text fragment this equals the node's text content with
only leading and trailing whitespace removed (internal runs preserved), and
the emitted title is exactly this extraction of the title node. -/
theorem c9_strip_only_amended :
    (∀ (n : Node) (s : String), n.strings = [s] →
      n.getTextStrip = pyStrip n.textContent) ∧
    (∀ (config : SiteConfig) (node titleNode : Node) (it : Item),
      node.selectOne config.title_selector = some titleNode →
      parseItem config node = some it → it.title = titleNode.getTextStrip) := by
  refine ⟨getTextStrip_single, ?_⟩
  intro config node titleNode it ht hit
  exact (parseItem_fields config node titleNode ht it hit).2.1

/-- C9 witness: on a single-fragment title the extraction is strip-only and
preserves the internal whitespace run. -/
theorem c9_strip_only_witness :
    (Node.elem "title" [] [Node.text "  A  B  "]).getTextStrip =
      pyStrip ((Node.elem "title" [] [Node.text "  A  B  "]).textContent) ∧
    pyStrip ((Node.elem "title" [] [Node.text "  A  B  "]).textContent) = "A  B" := by
  refine ⟨c9_strip_only_amended.1 _ "  A  B  " rfl, by decide⟩
